import Mathlib

/-!
Verification development for the AI-Assignment-Helper generation core.

The definitions below are shallow embeddings of the TypeScript source:

* the fenced-code-block sanitizer and two-stage presentation pipeline of
  `generatePresentation` (services/geminiService.ts, stage-2 variant);
* the error classifier `getFriendlyErrorMessage` (components/ChatView.tsx);
* the mode dispatch switch of `ChatView.handleSendMessage`;
* the submit guard of `InputBar.handleSubmit`;
* the Veo polling loop of `useVeo.startGeneration`;
* the grounding-chunk filter of `searchWeb`.

JavaScript strings are modelled as `List Char`; `JSON.parse` is modelled by an
executable JSON parser; promise fan-out/fan-in (`Promise.all`) is modelled by a
settlement schedule (a permutation of branch indices) written into an indexed
slot array.
-/

/-- The backtick character (avoids a literal backtick in code). -/
def bq : Char := Char.ofNat 96

/-- JavaScript `\s` / `String.trim` whitespace, restricted to the ASCII
whitespace characters that occur in provider responses. -/
def jsWs (c : Char) : Bool :=
  c = ' ' || c = '\t' || c = '\n' || c = '\r' || c = Char.ofNat 11 || c = Char.ofNat 12

/-- JSON-grammar whitespace (the four characters allowed by `JSON.parse`). -/
def jsonWs (c : Char) : Bool :=
  c = ' ' || c = '\t' || c = '\n' || c = '\r'

/-- Strip trailing `jsWs` characters. -/
def rstrip (l : List Char) : List Char :=
  (l.reverse.dropWhile jsWs).reverse

/-- Model of JavaScript `String.prototype.trim`. -/
def trimChars (l : List Char) : List Char :=
  rstrip (l.dropWhile jsWs)

/-- Does the list start with three backticks? -/
def startsWith3 (l : List Char) : Bool :=
  match l with
  | a :: b :: c :: _ => a = bq && b = bq && c = bq
  | _ => false

/-- The three-backtick fence delimiter. -/
def fenceLit : List Char := [bq, bq, bq]

/-- The opening delimiter recognised by the sanitizer regex. -/
def jsonFenceLit : List Char := [bq, bq, bq, 'j', 's', 'o', 'n']

/-- Does a three-backtick run occur anywhere in the list? -/
def hasFence : List Char → Bool
  | [] => false
  | c :: rest => startsWith3 (c :: rest) || hasFence rest

/-- Characters strictly before the first three-backtick run, or `none` when no
such run occurs.  This realises the lazy `([\s\S]*?)` up to the closing
delimiter of the sanitizer regex. -/
def firstFenceSplit : List Char → Option (List Char)
  | [] => none
  | c :: rest =>
    if startsWith3 (c :: rest) then some []
    else (firstFenceSplit rest).map (fun p => c :: p)

/-- Capture group produced after the literal opening delimiter: the greedy
leading whitespace is dropped, the lazy body runs to the earliest closing
fence, and the trailing whitespace before that fence is dropped. -/
def captureAfter (t : List Char) : Option (List Char) :=
  (firstFenceSplit (t.dropWhile jsWs)).map rstrip

/-- Leftmost-match search for the sanitizer regex: the capture of the first
position at which the whole pattern (opening delimiter, body, closing fence)
matches, scanning left to right. -/
def findFenceCapture : List Char → Option (List Char)
  | [] => none
  | c :: rest =>
    if jsonFenceLit.isPrefixOf (c :: rest) then
      match captureAfter ((c :: rest).drop 7) with
      | some cap => some cap
      | none => findFenceCapture rest
    else findFenceCapture rest

/-- Model of the sanitize step of `generatePresentation`: trim the response,
match the fenced-code-block regex, and replace the text by the capture when
the capture is truthy (a non-empty capture; `match[1]` is falsy when empty). -/
def sanitizeChars (s : List Char) : List Char :=
  let t := trimChars s
  match findFenceCapture t with
  | some cap => if cap ≠ [] then cap else t
  | none => t

/-- Wrap a body in the fenced-code-block delimiters the provider may emit. -/
def jsonFenceWrap (s : String) : String :=
  "```json\n" ++ s ++ "\n```"

/-- Char-list form of `jsonFenceWrap`. -/
def wrapChars (b : List Char) : List Char :=
  jsonFenceLit ++ '\n' :: (b ++ '\n' :: fenceLit)

/-- JSON values as produced by `JSON.parse`.  Numbers keep their source
lexeme; none of the modelled code inspects numeric magnitudes beyond
zero-testing. -/
inductive Json where
  | null : Json
  | bool (b : Bool) : Json
  | num (lexeme : String) : Json
  | str (s : String) : Json
  | arr (xs : List Json) : Json
  | obj (fields : List (String × Json)) : Json

/-- Simple escape characters of a JSON string. -/
def escSimple (e : Char) : Option Char :=
  if e = '"' then some '"'
  else if e = '\\' then some '\\'
  else if e = '/' then some '/'
  else if e = 'b' then some (Char.ofNat 8)
  else if e = 'f' then some (Char.ofNat 12)
  else if e = 'n' then some '\n'
  else if e = 'r' then some '\r'
  else if e = 't' then some '\t'
  else none

/-- Hex digit test. -/
def isHexDigit (c : Char) : Bool :=
  ('0' ≤ c && c ≤ '9') || ('a' ≤ c && c ≤ 'f') || ('A' ≤ c && c ≤ 'F')

/-- Hex digit value. -/
def hexVal (c : Char) : Nat :=
  if '0' ≤ c && c ≤ '9' then c.toNat - '0'.toNat
  else if 'a' ≤ c && c ≤ 'f' then c.toNat - 'a'.toNat + 10
  else if 'A' ≤ c && c ≤ 'F' then c.toNat - 'A'.toNat + 10
  else 0

/-- Parse the body of a JSON string after the opening quote, returning the
content characters and the remainder after the closing quote.  Fuel-indexed
so that recursion is structural. -/
def parseStrChars : Nat → List Char → Option (List Char × List Char)
  | 0, _ => none
  | _ + 1, [] => none
  | fuel + 1, c :: rest =>
    if c = '"' then some ([], rest)
    else if c = '\\' then
      match rest with
      | [] => none
      | e :: rest2 =>
        if e = 'u' then
          match rest2 with
          | a :: b :: c2 :: d :: rest3 =>
            if isHexDigit a && isHexDigit b && isHexDigit c2 && isHexDigit d then
              (parseStrChars fuel rest3).map
                (fun p =>
                  (Char.ofNat (((hexVal a * 16 + hexVal b) * 16 + hexVal c2) * 16 + hexVal d) :: p.1,
                   p.2))
            else none
          | _ => none
        else
          match escSimple e with
          | some ec => (parseStrChars fuel rest2).map (fun p => (ec :: p.1, p.2))
          | none => none
    else if c.toNat < 32 then none
    else (parseStrChars fuel rest).map (fun p => (c :: p.1, p.2))

/-- Optional fraction part of a JSON number. -/
def numFrac (l : List Char) : Option (List Char × List Char) :=
  if l.head? = some '.' then
    let d := l.tail.takeWhile Char.isDigit
    if d = [] then none else some ('.' :: d, l.tail.dropWhile Char.isDigit)
  else some ([], l)

/-- Optional exponent part of a JSON number. -/
def numExp (l : List Char) : Option (List Char × List Char) :=
  match l.head? with
  | none => some ([], l)
  | some c =>
    if c = 'e' || c = 'E' then
      let l1 := l.tail
      let sg : List Char × List Char :=
        match l1.head? with
        | some s => if s = '+' || s = '-' then ([s], l1.tail) else ([], l1)
        | none => ([], l1)
      let d := sg.2.takeWhile Char.isDigit
      if d = [] then none else some (c :: (sg.1 ++ d), sg.2.dropWhile Char.isDigit)
    else some ([], l)

/-- Parse a JSON number token, returning its lexeme. -/
def parseNum (l : List Char) : Option (Json × List Char) :=
  let sgn : List Char × List Char :=
    if l.head? = some '-' then (['-'], l.tail) else ([], l)
  let ip := sgn.2.takeWhile Char.isDigit
  let r1 := sgn.2.dropWhile Char.isDigit
  if ip = [] then none
  else if 1 < ip.length ∧ ip.head? = some '0' then none
  else
    match numFrac r1 with
    | none => none
    | some (fp, r2) =>
      match numExp r2 with
      | none => none
      | some (ep, r3) => some (Json.num (String.mk (sgn.1 ++ ip ++ fp ++ ep)), r3)

/-- Expect a literal suffix. -/
def expectLit (lit l : List Char) : Option (List Char) :=
  if lit.isPrefixOf l then some (l.drop lit.length) else none

/-- Insert-or-overwrite a key in a field list, keeping the original position
of an existing key (the semantics of both `JSON.parse` duplicate keys and
JavaScript object spread followed by a literal property). -/
def objInsert : List (String × Json) → String → Json → List (String × Json)
  | [], k, v => [(k, v)]
  | p :: rest, k, v => if p.1 == k then (k, v) :: rest else p :: objInsert rest k v

mutual

/-- Parse one JSON value.  Mirrors `JSON.parse` on the JSON grammar. -/
def parseVal : Nat → List Char → Option (Json × List Char)
  | 0, _ => none
  | fuel + 1, l =>
    match l.dropWhile jsonWs with
    | [] => none
    | c :: rest =>
      if c = '"' then
        (parseStrChars (rest.length + 1) rest).map (fun p => (Json.str (String.mk p.1), p.2))
      else if c = '[' then
        let t := rest.dropWhile jsonWs
        if t.head? = some ']' then some (Json.arr [], t.tail)
        else parseArrLoop fuel rest []
      else if c = '{' then
        let t := rest.dropWhile jsonWs
        if t.head? = some '}' then some (Json.obj [], t.tail)
        else parseObjLoop fuel rest []
      else if c = 'n' then
        (expectLit ['u', 'l', 'l'] rest).map (fun r => (Json.null, r))
      else if c = 't' then
        (expectLit ['r', 'u', 'e'] rest).map (fun r => (Json.bool true, r))
      else if c = 'f' then
        (expectLit ['a', 'l', 's', 'e'] rest).map (fun r => (Json.bool false, r))
      else parseNum (c :: rest)

/-- Parse the elements of a JSON array after the opening bracket. -/
def parseArrLoop : Nat → List Char → List Json → Option (Json × List Char)
  | 0, _, _ => none
  | fuel + 1, l, acc =>
    match parseVal fuel l with
    | none => none
    | some (v, r) =>
      let t := r.dropWhile jsonWs
      if t.head? = some ',' then parseArrLoop fuel t.tail (acc ++ [v])
      else if t.head? = some ']' then some (Json.arr (acc ++ [v]), t.tail)
      else none

/-- Parse the members of a JSON object after the opening brace. -/
def parseObjLoop : Nat → List Char → List (String × Json) → Option (Json × List Char)
  | 0, _, _ => none
  | fuel + 1, l, acc =>
    match l.dropWhile jsonWs with
    | [] => none
    | c :: rest =>
      if c = '"' then
        match parseStrChars (rest.length + 1) rest with
        | none => none
        | some (k, r1) =>
          let r2 := r1.dropWhile jsonWs
          if r2.head? = some ':' then
            match parseVal fuel r2.tail with
            | none => none
            | some (v, r3) =>
              let t := r3.dropWhile jsonWs
              if t.head? = some ',' then
                parseObjLoop fuel t.tail (objInsert acc (String.mk k) v)
              else if t.head? = some '}' then
                some (Json.obj (objInsert acc (String.mk k) v), t.tail)
              else none
          else none
      else none

end

/-- Model of `JSON.parse`: parse a complete value, requiring only whitespace
to remain.  The fuel is generous for the input length, so the model agrees
with `JSON.parse` on all inputs. -/
def parseJsonChars (l : List Char) : Option Json :=
  match parseVal (2 * l.length + 4) l with
  | none => none
  | some (j, rest) => if rest.dropWhile jsonWs = [] then some j else none

/-- Property access `j.k` on a parsed JSON value: defined for objects,
`undefined` (here `none`) otherwise. -/
def getField (j : Json) (k : String) : Option Json :=
  match j with
  | .obj fs => (fs.find? (fun p => p.1 == k)).map (fun p => p.2)
  | _ => none

/-- Is a JSON number lexeme the number zero? -/
def numIsZero (s : String) : Bool :=
  !((s.toList.takeWhile (fun c => c ≠ 'e' ∧ c ≠ 'E')).any (fun c => '1' ≤ c && c ≤ '9'))

/-- JavaScript truthiness of a possibly-absent value. -/
def jsTruthy : Option Json → Bool
  | none => false
  | some .null => false
  | some (.bool b) => b
  | some (.num s) => !(numIsZero s)
  | some (.str s) => !s.isEmpty
  | some (.arr _) => true
  | some (.obj _) => true

/-- JavaScript `x.length === 0` for a parsed JSON value. -/
def jsLenZero : Json → Bool
  | .arr xs => xs.isEmpty
  | .str s => s.isEmpty
  | .obj fs =>
    match ((fs.find? (fun p => p.1 == "length")).map (fun p => p.2) : Option Json) with
    | some (.num s) => numIsZero s
    | _ => false
  | _ => false

/-- JavaScript object spread followed by a property assignment,
as in the pipeline's slide copies. -/
def spreadSet (j : Json) (k : String) (v : Json) : Json :=
  match j with
  | .obj fs => .obj (objInsert fs k v)
  | _ => .obj [(k, v)]

/-- Property mutation `j.k = v`, as in the final slides write-back. -/
def setFieldJson (j : Json) (k : String) (v : Json) : Json :=
  match j with
  | .obj fs => .obj (objInsert fs k v)
  | _ => j

/-- Stage-2 enrichment of one slide.  `o` is the settled outcome of the
image-generation call for this slide: `some url` when the call resolved with
a data URL, `none` when it rejected.  A slide with a falsy `imagePrompt`
issues no call and gets `imageUrl: null` directly. -/
def enrichSlide (s : Json) (o : Option String) : Json :=
  if jsTruthy (getField s "imagePrompt") then
    match o with
    | some url => spreadSet s "imageUrl" (.str url)
    | none => spreadSet s "imageUrl" .null
  else spreadSet s "imageUrl" .null

/-- Number of image-generation calls stage 2 issues for a slide list: one per
slide with a truthy `imagePrompt`. -/
def callCount (xs : List Json) : Nat :=
  (xs.filter (fun s => jsTruthy (getField s "imagePrompt"))).length

/-- Event-loop model of concurrent settlement: branch results are written
into their slots in the order the branches settle. -/
def runSettle {α : Type} (init : List (Option α)) (order : List Nat) (res : Nat → α) :
    List (Option α) :=
  order.foldl (fun acc i => acc.set i (some (res i))) init

/-- Extract a fully settled slot array; `none` while any branch is pending. -/
def seqOpt {α : Type} : List (Option α) → Option (List α)
  | [] => some []
  | none :: _ => none
  | some a :: rest => (seqOpt rest).map (fun l => a :: l)

/-- Model of `Promise.all` over `n` branches whose settlement order is the
index list `order`: the join resolves exactly when every branch has settled,
and yields the results in slot (original) order. -/
def settleJoin {α : Type} (n : Nat) (res : Nat → α) (order : List Nat) : Option (List α) :=
  seqOpt (runSettle (List.replicate n none) order res)

/-- Result of branch `i` of stage 2. -/
def resultAt (xs : List Json) (outs : Nat → Option String) (i : Nat) : Json :=
  enrichSlide (xs.getD i .null) (outs i)

/-- Failure modes of the modelled pipeline run: a `SyntaxError` thrown by
`JSON.parse` on the sanitized body, a `TypeError` from calling `.map` on a
non-array truthy `slides`, or a join that never resolves because some branch
never settles. -/
inductive PipeError where
  | parseFailure : PipeError
  | typeError : PipeError
  | joinPending : PipeError

/-- Model of `generatePresentation` from the stage-1 response text onward:
trim and fence-strip the text, `JSON.parse` it, return the document unchanged
when `slides` is falsy or has length zero, otherwise enrich every slide
concurrently and write the settled slides back.  `outs i` is the outcome of
the image call for slide `i`; `order` is the order in which the concurrent
branches settle.  The second component of a successful result counts the
image-generation calls issued. -/
def generatePresentation (txt : String) (outs : Nat → Option String) (order : List Nat) :
    Except PipeError (Json × Nat) :=
  match parseJsonChars (sanitizeChars txt.toList) with
  | none => .error .parseFailure
  | some data =>
    let slides? := getField data "slides"
    if jsTruthy slides? = false then .ok (data, 0)
    else
      match slides? with
      | none => .ok (data, 0)
      | some sl =>
        if jsLenZero sl then .ok (data, 0)
        else
          match sl with
          | .arr xs =>
            match settleJoin xs.length (resultAt xs outs) order with
            | some ys => .ok (setFieldJson data "slides" (.arr ys), callCount xs)
            | none => .error .joinPending
          | _ => .error .typeError

/-- Closed error taxonomy.  The first six kinds are the branches of
`getFriendlyErrorMessage` in ChatView (in source order); `Validation` is the
seventh kind named by the specification, which no code path produces. -/
inductive ErrorKind where
  | Authentication : ErrorKind
  | RateLimited : ErrorKind
  | ContentBlocked : ErrorKind
  | DataFormat : ErrorKind
  | CredentialScope : ErrorKind
  | Validation : ErrorKind
  | Unknown : ErrorKind
deriving DecidableEq

/-- Substring containment, the model of JavaScript `String.includes`. -/
def containsSub (hay pat : List Char) : Bool :=
  match hay with
  | [] => pat.isEmpty
  | _ :: rest => pat.isPrefixOf hay || containsSub rest pat

/-- Lower-casing for the case-insensitive regex tests. -/
def lowerList (l : List Char) : List Char := l.map Char.toLower

/-- Branch selection of `getFriendlyErrorMessage` (ChatView): a priority-
ordered pattern match over the raw failure message.  `parseThrew` records
whether the raw failure is a `SyntaxError` instance (the `JSON.parse`
failure case). -/
def classifyError (msg : List Char) (parseThrew : Bool) : ErrorKind :=
  if containsSub msg ("API key not valid".toList) then .Authentication
  else if containsSub msg ("429".toList) || containsSub (lowerList msg) ("rate limit".toList) then
    .RateLimited
  else if containsSub (lowerList msg) ("safety".toList)
      || containsSub (lowerList msg) ("blocked".toList) then
    .ContentBlocked
  else if parseThrew then .DataFormat
  else if containsSub msg ("Requested entity was not found.".toList) then .CredentialScope
  else .Unknown

/-- Generation modes, from types.ts. -/
inductive GenerationMode where
  | Chat : GenerationMode
  | GenerateImage : GenerationMode
  | EditImage : GenerationMode
  | GenerateVideo : GenerationMode
  | AnalyzeImage : GenerationMode
  | ComplexQuery : GenerationMode
  | SearchWeb : GenerationMode
  | GeneratePPT : GenerationMode
deriving DecidableEq

/-- The provider call shapes a dispatched request can take, one per branch of
the `switch (mode)` in `ChatView.handleSendMessage`. -/
inductive CallShape where
  | generateImageCall : CallShape
  | editImageCall : CallShape
  | analyzeImageCall : CallShape
  | complexQueryCall : CallShape
  | presentationPipeline : CallShape
  | chatCall : CallShape
deriving DecidableEq

/-- The `switch (mode)` of `ChatView.handleSendMessage`: there are cases for
image generate/edit/analyze, complex query and presentation; every other
mode — `Chat`, but also `GenerateVideo` and `SearchWeb` — falls through to
the `default` branch, which sends a chat call via `runChat`. -/
def routeOf : GenerationMode → CallShape
  | .GenerateImage => .generateImageCall
  | .EditImage => .editImageCall
  | .AnalyzeImage => .analyzeImageCall
  | .ComplexQuery => .complexQueryCall
  | .GeneratePPT => .presentationPipeline
  | .Chat => .chatCall
  | .GenerateVideo => .chatCall
  | .SearchWeb => .chatCall

/-- Outcome of `InputBar.handleSubmit`: silently ignored (empty prompt and no
image), blocked by the missing-image guard (`alert` then early return), or
dispatched to `onSendMessage`. -/
inductive SubmitOutcome where
  | ignoredEmpty : SubmitOutcome
  | alertBlocked : SubmitOutcome
  | dispatched (m : GenerationMode) : SubmitOutcome
deriving DecidableEq

/-- Model of `InputBar.handleSubmit`: return early when the trimmed prompt is
falsy and no image is attached; show an alert and return early when the mode
is edit-image or analyze-image and no image is attached; otherwise dispatch. -/
def handleSubmit (m : GenerationMode) (prompt : String) (hasImage : Bool) : SubmitOutcome :=
  if trimChars prompt.toList = [] ∧ ¬hasImage then .ignoredEmpty
  else if (m = .EditImage ∨ m = .AnalyzeImage) ∧ ¬hasImage then .alertBlocked
  else .dispatched m

/-- Does a submit outcome reach `handleSendMessage`, the only place provider
calls are issued?  Both early-return outcomes issue zero provider calls. -/
def submitIssuesProviderCall : SubmitOutcome → Bool
  | .dispatched _ => true
  | _ => false

/-- The ClassifiedError raised on the submit path itself.  No branch of
`handleSubmit` constructs an error value of any kind — the guard shows a
browser alert and returns — so this is `none` on every outcome. -/
def submitRaisedErrorKind : SubmitOutcome → Option ErrorKind
  | _ => none

/-- Model of the recursive `poll` of `useVeo.startGeneration`.  Each
invocation calls `checkVideoStatus` once (counted); when the updated
operation is not done it unconditionally schedules the next invocation via
`setTimeout`.  The recursion has no cancellation input because the source
has none: no flag, no cleanup, no abort signal is in scope.  `done k` is the
`done` field of the operation returned by the `k`-th check; fuel bounds the
modelled run length. -/
def pollCalls (done : Nat → Bool) : Nat → Nat → Nat
  | 0, _ => 0
  | fuel + 1, k => 1 + (if done k then 0 else pollCalls done fuel (k + 1))

/-- Grounding chunk entry as the provider may return it: both fields
optional. -/
structure RawEntry where
  uri : Option String
  title : Option String
deriving DecidableEq

/-- Grounding chunk as the provider may return it. -/
structure RawChunk where
  web : Option RawEntry
  maps : Option RawEntry
deriving DecidableEq

/-- Grounding reference entry of the app's stricter local type. -/
structure RefEntry where
  uri : String
  title : String
deriving DecidableEq

/-- Grounding chunk of the app's stricter local type. -/
structure LocalChunk where
  web : Option RefEntry
  maps : Option RefEntry
deriving DecidableEq

/-- Keep an entry only when both `uri` and `title` are truthy (present and
non-empty), as the `chunk.web?.uri && chunk.web.title` test does. -/
def convertEntry (e : Option RawEntry) : Option RefEntry :=
  match e with
  | none => none
  | some r =>
    match r.uri, r.title with
    | some u, some t => if u ≠ "" ∧ t ≠ "" then some ⟨u, t⟩ else none
    | _, _ => none

/-- One iteration of the `searchWeb` transformation loop. -/
def convertChunk (c : RawChunk) : LocalChunk :=
  ⟨convertEntry c.web, convertEntry c.maps⟩

/-- The references list returned by `searchWeb`: each provider chunk is
converted and pushed only when at least one of its entries survived. -/
def searchWebRefs (chunks : List RawChunk) : List LocalChunk :=
  chunks.filterMap (fun c =>
    let n := convertChunk c
    if n.web.isSome ∨ n.maps.isSome then some n else none)

theorem runSettle_getElem? {α : Type} (order : List Nat) (init : List (Option α))
    (res : Nat → α) (j : Nat) :
    (runSettle init order res)[j]? =
      if j ∈ order ∧ j < init.length then some (some (res j)) else init[j]? := by
  induction order generalizing init with
  | nil => simp [runSettle]
  | cons i rest ih =>
    simp only [runSettle, List.foldl_cons]
    rw [show List.foldl (fun acc k => acc.set k (some (res k))) (init.set i (some (res i))) rest =
      runSettle (init.set i (some (res i))) rest res from rfl, ih]
    by_cases hjr : j ∈ rest ∧ j < init.length
    · simp [List.length_set, hjr, List.mem_cons]
    · simp only [List.length_set]
      rw [if_neg hjr, List.getElem?_set]
      by_cases hij : i = j
      · subst hij
        by_cases hlen : i < init.length
        · simp [hlen, List.mem_cons]
        · rw [if_pos rfl, if_neg hlen, if_neg, List.getElem?_eq_none (by omega)]
          omega
      · rw [if_neg hij, if_neg]
        simp only [List.mem_cons]
        intro hc
        rcases hc with ⟨hmem, hlt⟩
        rcases hmem with h1 | h2
        · exact hij h1.symm
        · exact hjr ⟨h2, hlt⟩

theorem runSettle_length {α : Type} (order : List Nat) (init : List (Option α)) (res : Nat → α) :
    (runSettle init order res).length = init.length := by
  induction order generalizing init with
  | nil => simp [runSettle]
  | cons i rest ih =>
    simp only [runSettle, List.foldl_cons]
    rw [show List.foldl (fun acc k => acc.set k (some (res k))) (init.set i (some (res i))) rest =
      runSettle (init.set i (some (res i))) rest res from rfl, ih, List.length_set]

theorem seqOpt_map_some {α : Type} (l : List α) : seqOpt (l.map some) = some l := by
  induction l with
  | nil => rfl
  | cons a rest ih => simp [seqOpt, ih]

theorem settleJoin_perm {α : Type} (n : Nat) (res : Nat → α) (order : List Nat)
    (hperm : order.Perm (List.range n)) :
    settleJoin n res order = some ((List.range n).map res) := by
  have hmem : ∀ j, j < n → j ∈ order := by
    intro j hj
    exact hperm.mem_iff.mpr (List.mem_range.mpr hj)
  have harr : runSettle (List.replicate n (none : Option α)) order res =
      (List.range n).map (fun i => some (res i)) := by
    apply List.ext_getElem?
    intro j
    rw [runSettle_getElem?]
    by_cases hj : j < n
    · rw [if_pos ⟨hmem j hj, by simp [hj]⟩]
      rw [List.getElem?_map, List.getElem?_range hj]
      rfl
    · rw [if_neg (by simp; omega)]
      rw [List.getElem?_eq_none (by simp; omega), List.getElem?_eq_none (by simp; omega)]
  rw [settleJoin, harr]
  have hmm2 : (List.range n).map (fun i => some (res i)) = ((List.range n).map res).map some := by
    simp [List.map_map]
  rw [hmm2, seqOpt_map_some]


theorem find?_objInsert_self (fs : List (String × Json)) (k : String) (v : Json) :
    (objInsert fs k v).find? (fun p => p.1 == k) = some (k, v) := by
  induction fs with
  | nil => simp [objInsert]
  | cons p rest ih =>
    by_cases h : p.1 == k
    · simp [objInsert, h]
    · rw [objInsert, if_neg (by simp_all)]
      rw [List.find?_cons_of_neg _ (by simp_all)]
      exact ih

theorem find?_objInsert_ne (fs : List (String × Json)) (k k2 : String) (v : Json)
    (h : k2 ≠ k) :
    (objInsert fs k v).find? (fun p => p.1 == k2) = fs.find? (fun p => p.1 == k2) := by
  have hk : ((k == k2) = false) := beq_eq_false_iff_ne.mpr (Ne.symm h)
  induction fs with
  | nil =>
    simp [objInsert, hk]
  | cons p rest ih =>
    by_cases hp : p.1 == k
    · have hpk : p.1 = k := by simpa using hp
      rw [objInsert, if_pos (by simp [hpk])]
      rw [List.find?_cons_of_neg _ (by simp [hk]), List.find?_cons_of_neg _ (by simp [hpk, hk])]
    · rw [objInsert, if_neg (by simp_all)]
      by_cases hq : p.1 == k2
      · rw [List.find?_cons_of_pos _ (by simp [hq]), List.find?_cons_of_pos _ (by simp [hq])]
      · rw [List.find?_cons_of_neg _ (by simp_all), List.find?_cons_of_neg _ (by simp_all)]
        exact ih

theorem getField_spreadSet_self (s : Json) (k : String) (v : Json) :
    getField (spreadSet s k v) k = some v := by
  cases s <;> simp [spreadSet, getField, find?_objInsert_self]

theorem getField_spreadSet_ne (s : Json) (k k2 : String) (v : Json) (h : k2 ≠ k) :
    getField (spreadSet s k v) k2 = getField s k2 := by
  have hk : ((k == k2) = false) := beq_eq_false_iff_ne.mpr (Ne.symm h)
  cases s <;> simp [spreadSet, getField, find?_objInsert_ne _ _ _ _ h, hk]

theorem enrichSlide_none (s : Json) : enrichSlide s none = spreadSet s "imageUrl" .null := by
  unfold enrichSlide
  split <;> rfl

theorem genPres_ok (txt : String) (outs : Nat → Option String) (order : List Nat)
    (d : Json) (xs : List Json)
    (hparse : parseJsonChars (sanitizeChars txt.toList) = some d)
    (hsl : getField d "slides" = some (.arr xs))
    (hne : xs ≠ [])
    (hperm : order.Perm (List.range xs.length)) :
    generatePresentation txt outs order =
      .ok (setFieldJson d "slides" (.arr ((List.range xs.length).map (resultAt xs outs))),
        callCount xs) := by
  have hE : xs.isEmpty = false := by
    cases xs with
    | nil => exact absurd rfl hne
    | cons a t => rfl
  unfold generatePresentation
  rw [hparse]
  simp only [hsl, jsTruthy, jsLenZero, hE]
  rw [settleJoin_perm xs.length (resultAt xs outs) order hperm]
  simp

/-- C3: for every parsed skeleton with at least one element, the document
returned after concurrent stage-2 enrichment has exactly as many elements as
the skeleton, in the skeleton's order (element `i` of the result is the
enrichment of element `i` of the skeleton), and the result is the same for
every order in which the per-element image calls settle. -/
theorem C3_element_count_and_order_preserved
    (txt : String) (outs : Nat → Option String) (order : List Nat)
    (d : Json) (xs : List Json)
    (hparse : parseJsonChars (sanitizeChars txt.toList) = some d)
    (hsl : getField d "slides" = some (.arr xs))
    (hne : xs ≠ [])
    (hperm : order.Perm (List.range xs.length)) :
    ∃ ys : List Json,
      generatePresentation txt outs order =
        .ok (setFieldJson d "slides" (.arr ys), callCount xs)
      ∧ ys.length = xs.length
      ∧ (∀ i, i < xs.length → ys.getD i .null = enrichSlide (xs.getD i .null) (outs i))
      ∧ (∀ order2, order2.Perm (List.range xs.length) →
          generatePresentation txt outs order2 = generatePresentation txt outs order) := by
  refine ⟨(List.range xs.length).map (resultAt xs outs),
    genPres_ok txt outs order d xs hparse hsl hne hperm, by simp, ?_, ?_⟩
  · intro i hi
    rw [List.getD_eq_getElem?_getD, List.getElem?_map, List.getElem?_range hi]
    rfl
  · intro order2 hp2
    rw [genPres_ok txt outs order2 d xs hparse hsl hne hp2,
      genPres_ok txt outs order d xs hparse hsl hne hperm]

/-- Witness for C3 at a concrete two-element skeleton, with the image call of
element 0 succeeding and that of element 1 failing, settling in reverse
order. -/
theorem C3_witness :
    ∃ ys : List Json,
      generatePresentation
          "\x7b\"slides\":[\x7b\"slideTitle\":\"A\",\"imagePrompt\":\"p\"\x7d,\x7b\"slideTitle\":\"B\"\x7d]\x7d"
          (fun i => if i = 0 then some "data-url" else none) [1, 0] =
        .ok (setFieldJson
          (Json.obj [("slides", Json.arr
            [Json.obj [("slideTitle", Json.str "A"), ("imagePrompt", Json.str "p")],
             Json.obj [("slideTitle", Json.str "B")]])])
          "slides" (.arr ys),
          callCount
            [Json.obj [("slideTitle", Json.str "A"), ("imagePrompt", Json.str "p")],
             Json.obj [("slideTitle", Json.str "B")]])
      ∧ ys.length =
          ([Json.obj [("slideTitle", Json.str "A"), ("imagePrompt", Json.str "p")],
            Json.obj [("slideTitle", Json.str "B")]] : List Json).length
      ∧ (∀ i, i <
            ([Json.obj [("slideTitle", Json.str "A"), ("imagePrompt", Json.str "p")],
              Json.obj [("slideTitle", Json.str "B")]] : List Json).length →
          ys.getD i .null =
            enrichSlide
              (([Json.obj [("slideTitle", Json.str "A"), ("imagePrompt", Json.str "p")],
                 Json.obj [("slideTitle", Json.str "B")]] : List Json).getD i .null)
              ((fun i => if i = 0 then some "data-url" else none) i))
      ∧ (∀ order2, order2.Perm (List.range
            ([Json.obj [("slideTitle", Json.str "A"), ("imagePrompt", Json.str "p")],
              Json.obj [("slideTitle", Json.str "B")]] : List Json).length) →
          generatePresentation
              "\x7b\"slides\":[\x7b\"slideTitle\":\"A\",\"imagePrompt\":\"p\"\x7d,\x7b\"slideTitle\":\"B\"\x7d]\x7d"
              (fun i => if i = 0 then some "data-url" else none) order2 =
            generatePresentation
              "\x7b\"slides\":[\x7b\"slideTitle\":\"A\",\"imagePrompt\":\"p\"\x7d,\x7b\"slideTitle\":\"B\"\x7d]\x7d"
              (fun i => if i = 0 then some "data-url" else none) [1, 0]) :=
  C3_element_count_and_order_preserved
    "\x7b\"slides\":[\x7b\"slideTitle\":\"A\",\"imagePrompt\":\"p\"\x7d,\x7b\"slideTitle\":\"B\"\x7d]\x7d"
    (fun i => if i = 0 then some "data-url" else none) [1, 0]
    (Json.obj [("slides", Json.arr
      [Json.obj [("slideTitle", Json.str "A"), ("imagePrompt", Json.str "p")],
       Json.obj [("slideTitle", Json.str "B")]])])
    [Json.obj [("slideTitle", Json.str "A"), ("imagePrompt", Json.str "p")],
     Json.obj [("slideTitle", Json.str "B")]]
    (by rfl) (by rfl) (by simp) (by decide)

/-- C4: for every element whose stage-2 image call fails, the returned
element has `imageUrl` explicitly `null`, its `slideTitle` and `content` are
unchanged from the skeleton, every element depends only on its own skeleton
entry and its own outcome (so siblings are unaffected), and the pipeline as
a whole still returns success — in particular also when every call fails. -/
theorem C4_enrichment_failure_isolated
    (txt : String) (outs : Nat → Option String) (order : List Nat)
    (d : Json) (xs : List Json) (i : Nat)
    (hparse : parseJsonChars (sanitizeChars txt.toList) = some d)
    (hsl : getField d "slides" = some (.arr xs))
    (hperm : order.Perm (List.range xs.length))
    (hi : i < xs.length)
    (hfail : outs i = none) :
    ∃ ys : List Json,
      generatePresentation txt outs order =
        .ok (setFieldJson d "slides" (.arr ys), callCount xs)
      ∧ ys.length = xs.length
      ∧ getField (ys.getD i .null) "imageUrl" = some .null
      ∧ getField (ys.getD i .null) "slideTitle" = getField (xs.getD i .null) "slideTitle"
      ∧ getField (ys.getD i .null) "content" = getField (xs.getD i .null) "content"
      ∧ (∀ j, j < xs.length → ys.getD j .null = enrichSlide (xs.getD j .null) (outs j)) := by
  have hne : xs ≠ [] := by
    intro hxs
    rw [hxs] at hi
    simp at hi
  have hgetD : ∀ j, j < xs.length →
      ((List.range xs.length).map (resultAt xs outs)).getD j .null =
        enrichSlide (xs.getD j .null) (outs j) := by
    intro j hj
    rw [List.getD_eq_getElem?_getD, List.getElem?_map, List.getElem?_range hj]
    rfl
  have hyi : ((List.range xs.length).map (resultAt xs outs)).getD i .null =
      spreadSet (xs.getD i .null) "imageUrl" .null := by
    rw [hgetD i hi, hfail, enrichSlide_none]
  refine ⟨(List.range xs.length).map (resultAt xs outs),
    genPres_ok txt outs order d xs hparse hsl hne hperm, by simp, ?_, ?_, ?_, hgetD⟩
  · rw [hyi, getField_spreadSet_self]
  · rw [hyi, getField_spreadSet_ne _ _ _ _ (by decide)]
  · rw [hyi, getField_spreadSet_ne _ _ _ _ (by decide)]

/-- Witness for C4 at a concrete two-element skeleton in which every image
call fails: both elements get `imageUrl: null`, titles and content survive,
and the pipeline returns success. -/
theorem C4_witness :
    ∃ ys : List Json,
      generatePresentation
          "\x7b\"slides\":[\x7b\"slideTitle\":\"A\",\"content\":[\"x\"],\"imagePrompt\":\"p\"\x7d,\x7b\"slideTitle\":\"B\",\"content\":[],\"imagePrompt\":\"q\"\x7d]\x7d"
          (fun _ => none) [0, 1] =
        .ok (setFieldJson
          (Json.obj [("slides", Json.arr
            [Json.obj [("slideTitle", Json.str "A"), ("content", Json.arr [Json.str "x"]),
              ("imagePrompt", Json.str "p")],
             Json.obj [("slideTitle", Json.str "B"), ("content", Json.arr []),
              ("imagePrompt", Json.str "q")]])])
          "slides" (.arr ys),
          callCount
            [Json.obj [("slideTitle", Json.str "A"), ("content", Json.arr [Json.str "x"]),
              ("imagePrompt", Json.str "p")],
             Json.obj [("slideTitle", Json.str "B"), ("content", Json.arr []),
              ("imagePrompt", Json.str "q")]])
      ∧ ys.length =
          ([Json.obj [("slideTitle", Json.str "A"), ("content", Json.arr [Json.str "x"]),
              ("imagePrompt", Json.str "p")],
            Json.obj [("slideTitle", Json.str "B"), ("content", Json.arr []),
              ("imagePrompt", Json.str "q")]] : List Json).length
      ∧ getField (ys.getD 0 .null) "imageUrl" = some .null
      ∧ getField (ys.getD 0 .null) "slideTitle" =
          getField
            (([Json.obj [("slideTitle", Json.str "A"), ("content", Json.arr [Json.str "x"]),
                ("imagePrompt", Json.str "p")],
              Json.obj [("slideTitle", Json.str "B"), ("content", Json.arr []),
                ("imagePrompt", Json.str "q")]] : List Json).getD 0 .null) "slideTitle"
      ∧ getField (ys.getD 0 .null) "content" =
          getField
            (([Json.obj [("slideTitle", Json.str "A"), ("content", Json.arr [Json.str "x"]),
                ("imagePrompt", Json.str "p")],
              Json.obj [("slideTitle", Json.str "B"), ("content", Json.arr []),
                ("imagePrompt", Json.str "q")]] : List Json).getD 0 .null) "content"
      ∧ (∀ j, j <
            ([Json.obj [("slideTitle", Json.str "A"), ("content", Json.arr [Json.str "x"]),
                ("imagePrompt", Json.str "p")],
              Json.obj [("slideTitle", Json.str "B"), ("content", Json.arr []),
                ("imagePrompt", Json.str "q")]] : List Json).length →
          ys.getD j .null =
            enrichSlide
              (([Json.obj [("slideTitle", Json.str "A"), ("content", Json.arr [Json.str "x"]),
                  ("imagePrompt", Json.str "p")],
                Json.obj [("slideTitle", Json.str "B"), ("content", Json.arr []),
                  ("imagePrompt", Json.str "q")]] : List Json).getD j .null)
              ((fun _ => none : Nat → Option String) j)) :=
  C4_enrichment_failure_isolated
    "\x7b\"slides\":[\x7b\"slideTitle\":\"A\",\"content\":[\"x\"],\"imagePrompt\":\"p\"\x7d,\x7b\"slideTitle\":\"B\",\"content\":[],\"imagePrompt\":\"q\"\x7d]\x7d"
    (fun _ => none) [0, 1]
    (Json.obj [("slides", Json.arr
      [Json.obj [("slideTitle", Json.str "A"), ("content", Json.arr [Json.str "x"]),
        ("imagePrompt", Json.str "p")],
       Json.obj [("slideTitle", Json.str "B"), ("content", Json.arr []),
        ("imagePrompt", Json.str "q")]])])
    [Json.obj [("slideTitle", Json.str "A"), ("content", Json.arr [Json.str "x"]),
      ("imagePrompt", Json.str "p")],
     Json.obj [("slideTitle", Json.str "B"), ("content", Json.arr []),
      ("imagePrompt", Json.str "q")]]
    0 (by rfl) (by rfl) (by decide) (by simp) (by rfl)

/-- C8: for every parsed skeleton whose `slides` is the empty array, the
pipeline returns the parsed document unchanged and issues zero
image-generation calls, for any outcomes and any settlement order. -/
theorem C8_zero_element_skeleton_unchanged
    (txt : String) (outs : Nat → Option String) (order : List Nat) (d : Json)
    (hparse : parseJsonChars (sanitizeChars txt.toList) = some d)
    (hsl : getField d "slides" = some (.arr [])) :
    generatePresentation txt outs order = .ok (d, 0) := by
  unfold generatePresentation
  rw [hparse]
  simp [hsl, jsTruthy, jsLenZero]

/-- Witness for C8 at a concrete zero-element skeleton. -/
theorem C8_witness :
    generatePresentation "\x7b\"slides\":[]\x7d" (fun _ => some "u") [3, 7] =
      .ok (Json.obj [("slides", Json.arr [])], 0) :=
  C8_zero_element_skeleton_unchanged "\x7b\"slides\":[]\x7d" (fun _ => some "u") [3, 7]
    (Json.obj [("slides", Json.arr [])]) (by rfl) (by rfl)

/-- C6: for every skeleton response whose body, after the trim-and-strip
sanitize step, fails to parse as JSON, the pipeline raises the parse failure
(it never returns any document, empty or partial), and the classifier maps a
`SyntaxError` whose message matches none of the higher-priority patterns to
`DataFormat`. -/
theorem C6_parse_failure_raises_dataformat
    (txt : String) (outs : Nat → Option String) (order : List Nat) (msg : List Char)
    (hfail : parseJsonChars (sanitizeChars txt.toList) = none)
    (h1 : containsSub msg ("API key not valid".toList) = false)
    (h2 : containsSub msg ("429".toList) = false)
    (h3 : containsSub (lowerList msg) ("rate limit".toList) = false)
    (h4 : containsSub (lowerList msg) ("safety".toList) = false)
    (h5 : containsSub (lowerList msg) ("blocked".toList) = false) :
    generatePresentation txt outs order = .error .parseFailure
    ∧ (∀ d n, generatePresentation txt outs order ≠ .ok (d, n))
    ∧ classifyError msg true = .DataFormat := by
  have hp : generatePresentation txt outs order = .error .parseFailure := by
    unfold generatePresentation
    rw [hfail]
  refine ⟨hp, ?_, ?_⟩
  · intro d n
    rw [hp]
    simp
  · unfold classifyError
    rw [h1, h2, h3, h4, h5]
    simp

/-- Witness for C6 at a concrete unparsable body and a representative
`JSON.parse` failure message. -/
theorem C6_witness :
    generatePresentation "here is your presentation" (fun _ => none) [] =
      .error .parseFailure
    ∧ (∀ d n, generatePresentation "here is your presentation" (fun _ => none) [] ≠ .ok (d, n))
    ∧ classifyError ("Unexpected token h in JSON at position 0".toList) true = .DataFormat :=
  C6_parse_failure_raises_dataformat "here is your presentation" (fun _ => none) []
    ("Unexpected token h in JSON at position 0".toList)
    (by rfl) (by decide) (by decide) (by decide) (by decide) (by decide)

/-- C9 fails as stated: a raw message can contain the substring 429 and still
be classified as `Authentication`, because the invalid-credential pattern is
checked first.  Concrete counterexample evaluated on the classifier. -/
theorem C9_counterexample :
    containsSub ("API key not valid: 429".toList) ("429".toList) = true
    ∧ classifyError ("API key not valid: 429".toList) false = .Authentication
    ∧ ErrorKind.Authentication ≠ ErrorKind.RateLimited := by
  refine ⟨by decide, by decide, by decide⟩

/-- C9 amended: every raw failure message that contains the substring 429
and does not match the higher-priority invalid-credential pattern is
classified `RateLimited`. -/
theorem C9_contains_429_rate_limited (msg : List Char) (parseThrew : Bool)
    (h429 : containsSub msg ("429".toList) = true)
    (hauth : containsSub msg ("API key not valid".toList) = false) :
    classifyError msg parseThrew = .RateLimited := by
  unfold classifyError
  rw [hauth, h429]
  simp

/-- Witness for the amended C9 at a concrete rate-limit message. -/
theorem C9_witness :
    classifyError ("HTTP 429 Too Many Requests".toList) false = .RateLimited :=
  C9_contains_429_rate_limited ("HTTP 429 Too Many Requests".toList) false
    (by decide) (by decide)

/-- C2 fails on the code: the `switch (mode)` of `ChatView.handleSendMessage`
has no `GenerateVideo` case, so a video-mode request falls through to the
`default` branch and is dispatched as a chat call (`runChat`); the initial
`generateVideo` call and the `useVeo` poller are never reached from the
dispatcher.  This evaluates the dispatch at the failing input. -/
theorem C2_video_mode_routed_to_chat :
    routeOf GenerationMode.GenerateVideo = CallShape.chatCall := rfl

/-- C1 fails on the code: the `poll` recursion of `useVeo.startGeneration`
takes no cancellation input at all — its only inputs are the operation
statuses — and unconditionally schedules the next `checkVideoStatus` while
the operation is not done.  With an operation that first reports done on the
third check, all three poll calls fire no matter when (or whether) the
caller stops being interested; a cancellation requested right after
submission is followed by three poll calls instead of the required zero. -/
theorem C1_poll_loop_fires_regardless :
    pollCalls (fun k => decide (2 ≤ k)) 5 0 = 3 := rfl

/-- C5 fails as stated: an edit-image submit with no attached asset is
stopped by the `alert`-and-return guard of `InputBar.handleSubmit`; no
ClassifiedError value is constructed on that path (in particular none of
kind `Validation`), though indeed zero provider calls are made. -/
theorem C5_counterexample :
    handleSubmit GenerationMode.EditImage "edit the sky" false = SubmitOutcome.alertBlocked
    ∧ submitRaisedErrorKind (handleSubmit GenerationMode.EditImage "edit the sky" false) ≠
        some ErrorKind.Validation
    ∧ submitIssuesProviderCall (handleSubmit GenerationMode.EditImage "edit the sky" false) =
        false := by
  refine ⟨by decide, by decide, by decide⟩

/-- C5 amended: every edit-image or analyze-image submit with no attached
asset is rejected locally before dispatch — zero provider calls are made and
no error value of any kind is raised; the request never reaches
`handleSendMessage`. -/
theorem C5_no_asset_rejected_locally (m : GenerationMode) (prompt : String)
    (h : m = .EditImage ∨ m = .AnalyzeImage) :
    submitIssuesProviderCall (handleSubmit m prompt false) = false
    ∧ submitRaisedErrorKind (handleSubmit m prompt false) = none
    ∧ (handleSubmit m prompt false = .ignoredEmpty
        ∨ handleSubmit m prompt false = .alertBlocked) := by
  have hout : handleSubmit m prompt false = .ignoredEmpty
      ∨ handleSubmit m prompt false = .alertBlocked := by
    unfold handleSubmit
    by_cases ht : trimChars prompt.data = []
    · left
      simp [ht]
    · right
      simp [ht, h]
  rcases hout with h1 | h1
  · rw [h1]
    exact ⟨rfl, rfl, Or.inl rfl⟩
  · rw [h1]
    exact ⟨rfl, rfl, Or.inr rfl⟩

/-- Witness for the amended C5 at a concrete analyze-image submit. -/
theorem C5_witness :
    submitIssuesProviderCall (handleSubmit GenerationMode.AnalyzeImage "what is this" false) =
      false
    ∧ submitRaisedErrorKind (handleSubmit GenerationMode.AnalyzeImage "what is this" false) =
        none
    ∧ (handleSubmit GenerationMode.AnalyzeImage "what is this" false = .ignoredEmpty
        ∨ handleSubmit GenerationMode.AnalyzeImage "what is this" false = .alertBlocked) :=
  C5_no_asset_rejected_locally GenerationMode.AnalyzeImage "what is this" (Or.inr rfl)

theorem convertEntry_nonempty (e : Option RawEntry) (w : RefEntry)
    (h : convertEntry e = some w) : w.uri ≠ "" ∧ w.title ≠ "" := by
  rcases e with _ | r
  · simp [convertEntry] at h
  · rcases hru : r.uri with _ | u
    · simp [convertEntry, hru] at h
    · rcases hrt : r.title with _ | t
      · simp [convertEntry, hru, hrt] at h
      · simp only [convertEntry, hru, hrt] at h
        by_cases hc : u ≠ "" ∧ t ≠ ""
        · rw [if_pos hc] at h
          have hw : RefEntry.mk u t = w := by injection h
          subst hw
          exact hc
        · rw [if_neg hc] at h
          simp at h

/-- C10: every grounding reference returned by the `searchWeb` chunk
transformation has a web or maps entry, and every entry it carries has a
non-empty `uri` and a non-empty `title`; provider chunks failing either test
contribute nothing. -/
theorem C10_searchweb_refs_nonempty
    (chunks : List RawChunk) (r : LocalChunk) (hr : r ∈ searchWebRefs chunks) :
    (r.web.isSome ∨ r.maps.isSome)
    ∧ (∀ w, r.web = some w → w.uri ≠ "" ∧ w.title ≠ "")
    ∧ (∀ mm, r.maps = some mm → mm.uri ≠ "" ∧ mm.title ≠ "") := by
  simp only [searchWebRefs, List.mem_filterMap] at hr
  obtain ⟨c, hcmem, hc⟩ := hr
  by_cases hcond : (convertChunk c).web.isSome ∨ (convertChunk c).maps.isSome
  · rw [if_pos hcond] at hc
    have hrc : convertChunk c = r := by injection hc
    subst hrc
    refine ⟨hcond, ?_, ?_⟩
    · intro w hw
      exact convertEntry_nonempty c.web w hw
    · intro mm hm
      exact convertEntry_nonempty c.maps mm hm
  · rw [if_neg hcond] at hc
    simp at hc

/-- Witness for C10 at a concrete chunk list: one chunk with a complete web
entry and a partial maps entry (kept, maps dropped), one chunk with only a
partial web entry (dropped entirely). -/
theorem C10_witness :
    ((LocalChunk.mk (some (RefEntry.mk "https://e.com" "E")) none).web.isSome
      ∨ (LocalChunk.mk (some (RefEntry.mk "https://e.com" "E")) none).maps.isSome)
    ∧ (∀ w, (LocalChunk.mk (some (RefEntry.mk "https://e.com" "E")) none).web = some w →
        w.uri ≠ "" ∧ w.title ≠ "")
    ∧ (∀ mm, (LocalChunk.mk (some (RefEntry.mk "https://e.com" "E")) none).maps = some mm →
        mm.uri ≠ "" ∧ mm.title ≠ "") :=
  C10_searchweb_refs_nonempty
    [RawChunk.mk (some (RawEntry.mk (some "https://e.com") (some "E")))
       (some (RawEntry.mk (some "https://m.com") none)),
     RawChunk.mk (some (RawEntry.mk (some "https://partial.com") (some ""))) none]
    (LocalChunk.mk (some (RefEntry.mk "https://e.com" "E")) none)
    (by decide)

theorem rstrip_append_nonws (l : List Char) (c : Char) (h : jsWs c = false) :
    rstrip (l ++ [c]) = l ++ [c] := by
  rw [rstrip, List.reverse_append]
  simp only [List.reverse_cons, List.reverse_nil, List.nil_append, List.singleton_append]
  rw [List.dropWhile_cons, if_neg (by simp [h])]
  simp

theorem rstrip_append_ws (l : List Char) (c : Char) (h : jsWs c = true) :
    rstrip (l ++ [c]) = rstrip l := by
  rw [rstrip, rstrip, List.reverse_append]
  simp only [List.reverse_cons, List.reverse_nil, List.nil_append, List.singleton_append]
  rw [List.dropWhile_cons, if_pos (by simp [h])]

theorem dropWhile_head_false (p : Char → Bool) (l : List Char) (h : Char) (t : List Char)
    (hd : l.dropWhile p = h :: t) : p h = false := by
  induction l with
  | nil => simp at hd
  | cons a rest ih =>
    rw [List.dropWhile_cons] at hd
    by_cases hp : p a
    · rw [if_pos hp] at hd
      exact ih hd
    · rw [if_neg hp] at hd
      cases hd
      simpa using hp

theorem rstrip_cons_ne_nil (h : Char) (t : List Char) (hh : jsWs h = false) :
    rstrip (h :: t) ≠ [] := by
  intro hnil
  rw [rstrip] at hnil
  have hdw : (h :: t).reverse.dropWhile jsWs = [] := by
    have := congrArg List.reverse hnil
    simpa using this
  have hall := List.dropWhile_eq_nil_iff.mp hdw
  have hmem : h ∈ (h :: t).reverse := by simp
  have := hall h hmem
  simp [hh] at this

theorem hasFence_append_left (u v : List Char) (h : hasFence u = true) :
    hasFence (u ++ v) = true := by
  induction u with
  | nil => simp [hasFence] at h
  | cons c u' ih =>
    rw [hasFence] at h
    rcases Bool.or_eq_true_iff.mp h with h1 | h1
    · cases u' with
      | nil => simp [startsWith3] at h1
      | cons b u'' =>
        cases u'' with
        | nil => simp [startsWith3] at h1
        | cons c2 u''' =>
          show (startsWith3 (c :: ((b :: c2 :: u''') ++ v))
            || hasFence ((b :: c2 :: u''') ++ v)) = true
          apply Bool.or_eq_true_iff.mpr
          left
          show (decide (c = bq) && decide (b = bq) && decide (c2 = bq)) = true
          simpa [startsWith3] using h1
    · show (startsWith3 (c :: (u' ++ v)) || hasFence (u' ++ v)) = true
      rw [ih h1]
      simp

theorem hasFence_append_right (u v : List Char) (h : hasFence v = true) :
    hasFence (u ++ v) = true := by
  induction u with
  | nil => simpa using h
  | cons c u' ih =>
    rw [List.cons_append, hasFence, ih]
    simp

theorem hasFence_false_dropWhile (p : Char → Bool) (l : List Char) (h : hasFence l = false) :
    hasFence (l.dropWhile p) = false := by
  by_contra hcon
  have ht : hasFence (l.dropWhile p) = true := by
    cases hx : hasFence (l.dropWhile p) with
    | false => exact absurd hx hcon
    | true => rfl
  have : hasFence (l.takeWhile p ++ l.dropWhile p) = true :=
    hasFence_append_right _ _ ht
  rw [List.takeWhile_append_dropWhile] at this
  rw [this] at h
  cases h

theorem hasFence_false_rstrip (l : List Char) (h : hasFence l = false) :
    hasFence (rstrip l) = false := by
  have hdecomp : l = rstrip l ++ (l.reverse.takeWhile jsWs).reverse := by
    rw [rstrip]
    rw [show (l.reverse.dropWhile jsWs).reverse ++ (l.reverse.takeWhile jsWs).reverse =
      (l.reverse.takeWhile jsWs ++ l.reverse.dropWhile jsWs).reverse from by
        rw [List.reverse_append]]
    rw [List.takeWhile_append_dropWhile, List.reverse_reverse]
  by_contra hcon
  have ht : hasFence (rstrip l) = true := by
    cases hx : hasFence (rstrip l) with
    | false => exact absurd hx hcon
    | true => rfl
  have := hasFence_append_left (rstrip l) (l.reverse.takeWhile jsWs).reverse ht
  rw [← hdecomp] at this
  rw [this] at h
  cases h

theorem hasFence_false_trim (l : List Char) (h : hasFence l = false) :
    hasFence (trimChars l) = false :=
  hasFence_false_rstrip _ (hasFence_false_dropWhile _ _ h)

theorem startsWith3_of_fencePrefix (l : List Char)
    (h : jsonFenceLit.isPrefixOf l = true) : startsWith3 l = true := by
  cases l with
  | nil => simp [jsonFenceLit, List.isPrefixOf] at h
  | cons a l1 =>
    cases l1 with
    | nil => simp [jsonFenceLit, List.isPrefixOf] at h
    | cons b l2 =>
      cases l2 with
      | nil => simp [jsonFenceLit, List.isPrefixOf] at h
      | cons c l3 =>
        simp only [jsonFenceLit, List.isPrefixOf, Bool.and_eq_true, beq_iff_eq] at h
        obtain ⟨ha, hb, hc, _⟩ := h
        subst ha
        subst hb
        subst hc
        simp [startsWith3]

theorem findFenceCapture_none (l : List Char) (h : hasFence l = false) :
    findFenceCapture l = none := by
  induction l with
  | nil => rfl
  | cons c rest ih =>
    rw [hasFence] at h
    rcases Bool.or_eq_false_iff.mp h with ⟨h1, h2⟩
    rw [findFenceCapture, if_neg]
    · exact ih h2
    · intro hp
      rw [startsWith3_of_fencePrefix _ hp] at h1
      cases h1

theorem sanitize_no_fence (l : List Char) (h : hasFence l = false) :
    sanitizeChars l = trimChars l := by
  rw [sanitizeChars]
  rw [findFenceCapture_none _ (hasFence_false_trim _ h)]

theorem firstFenceSplit_fence_at_end (u : List Char) (hu : hasFence u = false) :
    firstFenceSplit (u ++ '\n' :: fenceLit) = some (u ++ ['\n']) := by
  induction u with
  | nil =>
    show firstFenceSplit ('\n' :: fenceLit) = some ['\n']
    rw [firstFenceSplit, if_neg (by decide)]
    rw [show firstFenceSplit fenceLit = some [] from by decide]
    rfl
  | cons c u' ih =>
    rw [hasFence] at hu
    rcases Bool.or_eq_false_iff.mp hu with ⟨h1, h2⟩
    have hsw : startsWith3 (c :: (u' ++ '\n' :: fenceLit)) = false := by
      cases u' with
      | nil =>
        show (decide (c = bq) && decide ('\n' = bq) && decide (bq = bq)) = false
        rw [show decide ('\n' = bq) = false from by decide]
        simp
      | cons d u'' =>
        cases u'' with
        | nil =>
          show (decide (c = bq) && decide (d = bq) && decide ('\n' = bq)) = false
          rw [show decide ('\n' = bq) = false from by decide]
          simp
        | cons e u''' =>
          exact h1
    rw [show (c :: u') ++ '\n' :: fenceLit = c :: (u' ++ '\n' :: fenceLit) from rfl]
    rw [firstFenceSplit, if_neg (by simp [hsw])]
    rw [ih h2]
    rfl

theorem captureAfter_wrap (B : List Char) (hB : hasFence B = false) :
    captureAfter ('\n' :: (B ++ '\n' :: fenceLit)) = some (trimChars B) := by
  rw [captureAfter]
  rw [List.dropWhile_cons, if_pos (by decide)]
  rw [List.dropWhile_append]
  by_cases hBe : (B.dropWhile jsWs).isEmpty
  · rw [if_pos hBe]
    rw [show ('\n' :: fenceLit).dropWhile jsWs = fenceLit from by decide]
    rw [show firstFenceSplit fenceLit = some [] from by decide]
    have hBnil : B.dropWhile jsWs = [] := by simpa using hBe
    rw [trimChars, hBnil]
    rfl
  · rw [if_neg hBe]
    rw [firstFenceSplit_fence_at_end _ (hasFence_false_dropWhile _ _ hB)]
    show some (rstrip (B.dropWhile jsWs ++ ['\n'])) = some (trimChars B)
    rw [rstrip_append_ws _ _ (by decide)]
    rfl

theorem isPrefixOf_append_self (u v : List Char) : u.isPrefixOf (u ++ v) = true := by
  induction u with
  | nil => simp [List.isPrefixOf]
  | cons a u' ih => simp [List.isPrefixOf, ih]

theorem trim_wrap (B : List Char) : trimChars (wrapChars B) = wrapChars B := by
  have h1 : (wrapChars B).dropWhile jsWs = wrapChars B := by
    show (bq :: ([bq, bq, 'j', 's', 'o', 'n'] ++ '\n' :: (B ++ '\n' :: fenceLit))).dropWhile jsWs
      = wrapChars B
    rw [List.dropWhile_cons, if_neg (by decide)]
    rfl
  have h2 : wrapChars B = (jsonFenceLit ++ '\n' :: (B ++ ['\n', bq, bq])) ++ [bq] := by
    simp [wrapChars, fenceLit]
  rw [trimChars, h1, h2, rstrip_append_nonws _ _ (by decide)]

theorem findFenceCapture_wrap (B : List Char)
    (hc : captureAfter ('\n' :: (B ++ '\n' :: fenceLit)) = some (trimChars B)) :
    findFenceCapture (wrapChars B) = some (trimChars B) := by
  have hpre : jsonFenceLit.isPrefixOf
      (bq :: bq :: bq :: 'j' :: 's' :: 'o' :: 'n' :: ('\n' :: (B ++ '\n' :: fenceLit))) = true :=
    isPrefixOf_append_self jsonFenceLit ('\n' :: (B ++ '\n' :: fenceLit))
  show findFenceCapture
      (bq :: bq :: bq :: 'j' :: 's' :: 'o' :: 'n' :: ('\n' :: (B ++ '\n' :: fenceLit))) =
    some (trimChars B)
  rw [findFenceCapture, if_pos hpre]
  rw [show (bq :: bq :: bq :: 'j' :: 's' :: 'o' :: 'n' :: ('\n' :: (B ++ '\n' :: fenceLit))).drop 7
      = '\n' :: (B ++ '\n' :: fenceLit) from rfl]
  rw [hc]

theorem sanitize_wrap (B : List Char) (hB : hasFence B = false) :
    sanitizeChars (wrapChars B) =
      if trimChars B = [] then wrapChars B else trimChars B := by
  rw [sanitizeChars]
  rw [trim_wrap]
  rw [findFenceCapture_wrap B (captureAfter_wrap B hB)]
  by_cases h : trimChars B = []
  · rw [if_pos h]
    simp [h]
  · rw [if_neg h]
    simp [h]

theorem parseNum_bq (l : List Char) : parseNum (bq :: l) = none := by
  have hd : Char.isDigit bq = false := by decide
  have hm : ((bq :: l).head? = some '-') = False := by
    simp only [List.head?_cons, Option.some.injEq]
    exact eq_false (by decide)
  have hbm : (bq = '-') = False := eq_false (by decide)
  simp [parseNum, List.takeWhile_cons, hd, hm, hbm]

theorem parseVal_bq (fuel : Nat) (l : List Char) : parseVal fuel (bq :: l) = none := by
  cases fuel with
  | zero => rfl
  | succ f =>
    rw [parseVal]
    rw [List.dropWhile_cons, if_neg (by decide)]
    show (if bq = '"' then _ else _) = none
    rw [if_neg (by decide), if_neg (by decide), if_neg (by decide), if_neg (by decide),
      if_neg (by decide), if_neg (by decide)]
    exact parseNum_bq l

theorem parseJson_bq (l : List Char) : parseJsonChars (bq :: l) = none := by
  rw [parseJsonChars, parseVal_bq]

theorem toList_fence_wrap (body : String) :
    (jsonFenceWrap body).toList = wrapChars body.toList := by
  show ("```json\n" ++ body ++ "\n```").data = wrapChars body.data
  rw [String.data_append, String.data_append]
  rw [show ("```json\n").data = ([bq, bq, bq, 'j', 's', 'o', 'n', '\n'] : List Char) from by decide]
  rw [show ("\n```").data = (['\n', bq, bq, bq] : List Char) from by decide]
  simp [wrapChars, jsonFenceLit, fenceLit]

/-- C7 fails as stated: the sanitizer regex matches the first three-backtick
run anywhere in the text, including inside a JSON string literal.  For a
valid skeleton body whose title contains three backticks, the unwrapped body
parses to a document while the fence-wrapped body is truncated by the
sanitizer and fails to parse — so wrapping is observably not a no-op. -/
theorem C7_counterexample :
    parseJsonChars (sanitizeChars
        ("\x7b\"presentationTitle\": \"T ``` u\", \"slides\": []\x7d").toList) =
      some (Json.obj [("presentationTitle", Json.str "T ``` u"), ("slides", Json.arr [])])
    ∧ parseJsonChars (sanitizeChars
        (jsonFenceWrap "\x7b\"presentationTitle\": \"T ``` u\", \"slides\": []\x7d").toList) =
      none := by
  exact ⟨by rfl, by rfl⟩

/-- C7 amended: for every body in which no three-backtick run occurs, the
sanitize-then-parse step applied to the body wrapped in the fenced-code-block
delimiters yields exactly the same parse result as applied to the unwrapped
body. -/
theorem C7_fence_strip_no_op (body : String) (hB : hasFence body.toList = false) :
    parseJsonChars (sanitizeChars (jsonFenceWrap body).toList) =
      parseJsonChars (sanitizeChars body.toList) := by
  rw [toList_fence_wrap, sanitize_wrap body.toList hB, sanitize_no_fence _ hB]
  by_cases h : trimChars body.toList = []
  · rw [if_pos h, h]
    rw [show wrapChars body.toList =
      bq :: ([bq, bq, 'j', 's', 'o', 'n'] ++ '\n' :: (body.toList ++ '\n' :: fenceLit)) from rfl]
    rw [parseJson_bq]
    rfl
  · rw [if_neg h]

/-- Witness for the amended C7 at a concrete fence-free body. -/
theorem C7_witness :
    parseJsonChars (sanitizeChars
        (jsonFenceWrap "\x7b\"presentationTitle\": \"T\", \"slides\": []\x7d").toList) =
      parseJsonChars (sanitizeChars
        ("\x7b\"presentationTitle\": \"T\", \"slides\": []\x7d").toList) :=
  C7_fence_strip_no_op "\x7b\"presentationTitle\": \"T\", \"slides\": []\x7d" (by decide)
